import Mathlib

/-!
Verification development for the Protocol Design Optimization Engine
(modules/optimizer.py).

Embedding conventions:
- Python floats are modelled as rationals; the arithmetic of the engine only
  involves small decimal constants, so the formulas are stated exactly.
- The global state of the random module is modelled as an explicit infinite
  tape of naturals (the source consults module-level random.randint and
  random.choice, so the tape is an extra argument of every generating
  function); draw number i reads position i of the tape.
- The two third-party numeric routines, statsmodels TTestIndPower().power and
  sklearn KMeans(n_clusters=k, random_state=0).fit, are not part of the
  repository; they enter the embedding as explicit oracle arguments that
  either return a value or raise.
- A raised Python exception is an Except.error value; a function that can
  raise returns Except PyErr.
-/

open List

/-- Python exceptions that the optimizer source can raise. -/
inductive PyErr where
  | valueError : PyErr
  | indexError : PyErr
deriving DecidableEq

/-- One candidate design: the dict built at source lines 37 to 42. The field
rand_rat models the dict entry named rand_ratio. -/
structure Candidate where
  sample_size : ℤ
  looseness : ℕ
  rand_rat : ℚ
  score : ℚ
deriving DecidableEq

/-- The keys of the dict literal returned by generate_candidate
(source lines 37 to 42). -/
def candidateDictKeys : List String :=
  ["sample_size", "looseness", "rand_ratio", "score"]

/-- The state of the global random module, abstracted as an infinite tape of
naturals: draw number i reads position i. -/
abbrev Rng := ℕ → ℕ

/-- The statsmodels TTestIndPower().power routine as an external oracle of
effect size, nobs1 and alpha; it returns a value or raises. -/
abbrev PowerOracle := ℚ → ℤ → ℚ → Except Unit ℚ

/-- The sklearn KMeans(n_clusters=k, random_state=0).fit(X).labels_ routine as
an external oracle of the feature rows and k; it returns the label array or
raises. -/
abbrev KmOracle := List (ℤ × ℕ × ℚ) → ℕ → Except Unit (List ℕ)

/-- Python int() on a rational: truncation toward zero. -/
def pyInt (q : ℚ) : ℤ := if 0 ≤ q then ⌊q⌋ else ⌈q⌉

/-- random.randint(lo, hi): uniform on the inclusive range, raising ValueError
when the range is empty; the draw reads the tape at position pos and reduces
it into the range. -/
def randint (g : Rng) (pos : ℕ) (lo hi : ℤ) : Except PyErr ℤ :=
  if lo ≤ hi then Except.ok (lo + (g pos : ℤ) % (hi - lo + 1))
  else Except.error PyErr.valueError

/-- compute_power (source lines 10 to 15): call the power routine inside a try
block and degrade to 0.0 when it raises. -/
def compute_power (po : PowerOracle) (effect_size : ℚ) (n_per_group : ℤ)
    (alpha : ℚ) : ℚ :=
  match po effect_size n_per_group alpha with
  | Except.ok p => p
  | Except.error _ => 0

/-- The unclamped feasibility expression (source line 22). -/
def feasibilityRaw (sample_size : ℤ) (looseness_score : ℕ) : ℚ :=
  1 - (sample_size : ℚ) / 2000 - (looseness_score : ℚ) * (1 / 10)

/-- The clamped feasibility (source line 23). -/
def feasibilityOf (sample_size : ℤ) (looseness_score : ℕ) : ℚ :=
  max 0 (min 1 (feasibilityRaw sample_size looseness_score))

/-- score_design (source lines 17 to 25): n_per_group is max(2, int(total/2)),
alpha stays at its default 0.05, and the final score combines power and
feasibility with the fixed weights 0.6 and 0.4. -/
def score_design (po : PowerOracle) (sample_size : ℤ) (looseness_score : ℕ)
    (est_effect : ℚ) : ℚ :=
  let n_per_group : ℤ := max 2 (pyInt ((sample_size : ℚ) / 2))
  let pow_score : ℚ := compute_power po est_effect n_per_group (1 / 20)
  6 / 10 * pow_score + 4 / 10 * feasibilityOf sample_size looseness_score

/-- Source line 28: parsed.get of the sample size key, followed by the Python
or with 200. The dict lookup yields None both when the key is absent and when
it stores None; both collapse to none here. The or falls through to 200 on
the two falsy values None and 0. -/
def baseN (sample_size_field : Option ℤ) : ℤ :=
  match sample_size_field with
  | none => 200
  | some v => if v = 0 then 200 else v

/-- generate_candidate (source lines 27 to 42): perturb the baseline sample
size by randint(-delta, delta), floor at 20, draw looseness from the list
0, 1, 2 and the randomization ratio from the list 1.0, 1.5, 2.0. Candidate
number j uses tape positions 3j, 3j+1 and 3j+2. -/
def generate_candidate (po : PowerOracle) (parsed : Option ℤ)
    (variation_frac : ℚ) (g : Rng) (j : ℕ) : Except PyErr Candidate :=
  let base_n : ℤ := baseN parsed
  let delta : ℤ := pyInt ((base_n : ℚ) * variation_frac)
  match randint g (3 * j) (-delta) delta with
  | Except.error e => Except.error e
  | Except.ok u =>
    let new_n : ℤ := max 20 (base_n + u)
    let looseness : ℕ := [0, 1, 2].getD (g (3 * j + 1) % 3) 0
    let rand_rat : ℚ := [(1 : ℚ), 3 / 2, 2].getD (g (3 * j + 2) % 3) 1
    Except.ok ⟨new_n, looseness, rand_rat, score_design po new_n looseness (4 / 10)⟩

/-- Sequential effectful map, mirroring a Python for loop that appends to a
list: the first raised exception aborts the loop and propagates. -/
def mapExcept {α β : Type} (f : α → Except PyErr β) : List α → Except PyErr (List β)
  | [] => Except.ok []
  | a :: l =>
    match f a with
    | Except.error e => Except.error e
    | Except.ok b =>
      match mapExcept f l with
      | Except.error e => Except.error e
      | Except.ok bs => Except.ok (b :: bs)

/-- The pool generation loop of optimize_protocol (source lines 46 to 49). -/
def genPool (po : PowerOracle) (parsed : Option ℤ) (variation_frac : ℚ)
    (g : Rng) (pool_size : ℕ) : Except PyErr (List Candidate) :=
  mapExcept (fun j => generate_candidate po parsed variation_frac g j)
    (List.range pool_size)

/-- The feature matrix X (source line 52). -/
def features (pool : List Candidate) : List (ℤ × ℕ × ℚ) :=
  pool.map (fun c => (c.sample_size, c.looseness, c.rand_rat))

/-- Comparison by descending score. Python sorted with key minus score is the
stable sort by this relation, which holds on ties. -/
def scoreGE (a b : Candidate) : Prop := b.score ≤ a.score

instance : DecidableRel scoreGE := fun a b => inferInstanceAs (Decidable (b.score ≤ a.score))

instance : IsTotal Candidate scoreGE := ⟨fun a b => le_total b.score a.score⟩

instance : IsTrans Candidate scoreGE := ⟨fun _ _ _ h1 h2 => le_trans h2 h1⟩

/-- Python sorted with key minus score (source lines 60, 67 and 69): the
unique stable descending-by-score sort, realized as insertion sort by
scoreGE. -/
def sortByScoreDesc (l : List Candidate) : List Candidate :=
  List.insertionSort scoreGE l

/-- The cluster member list built at source line 65: pool positions whose
label equals lab, in pool order. The zip pairs pool position i with label i;
optimize_protocol only reaches this once the labels cover the pool. -/
def clusterMembers (pool : List Candidate) (labels : List ℕ) (lab : ℕ) :
    List Candidate :=
  ((pool.zip labels).filter (fun p => decide (p.2 = lab))).map Prod.fst

/-- Source lines 66 to 67: take members_sorted position 0; on an empty member
list the subscript raises IndexError, outside the try block. -/
def pickRep (members : List Candidate) : Except PyErr Candidate :=
  match sortByScoreDesc members with
  | [] => Except.error PyErr.indexError
  | c :: _ => Except.ok c

/-- The representative selection loop and the final descending sort
(source lines 62 to 70). -/
def selectReps (pool : List Candidate) (labels : List ℕ) (k : ℕ) :
    Except PyErr (List Candidate) :=
  match mapExcept (fun lab => pickRep (clusterMembers pool labels lab)) (List.range k) with
  | Except.error e => Except.error e
  | Except.ok selected => Except.ok (sortByScoreDesc selected)

/-- optimize_protocol (source lines 44 to 71): generate the pool with the
default variation fraction 0.2, set k to min(pick_k, pool size), fit KMeans
inside a try block whose except falls back to the score-sorted top k, and
otherwise pick one representative per cluster. A successful fit whose label
array were shorter than the pool would make the label subscript raise
IndexError outside the try block. -/
def optimize_protocol (po : PowerOracle) (km : KmOracle) (parsed : Option ℤ)
    (g : Rng) (pool_size : ℕ) (pick_k : ℕ) : Except PyErr (List Candidate) :=
  match genPool po parsed (1 / 5) g pool_size with
  | Except.error e => Except.error e
  | Except.ok pool =>
    let k : ℕ := min pick_k pool.length
    match km (features pool) k with
    | Except.error _ => Except.ok ((sortByScoreDesc pool).take k)
    | Except.ok labels =>
      if pool.length ≤ labels.length then selectReps pool labels k
      else Except.error PyErr.indexError

/-- KMeans oracle taking the cluster count as the Python int it is: a
nonpositive count makes the fit raise. -/
abbrev KmOracleInt := List (ℤ × ℕ × ℚ) → ℤ → Except Unit (List ℕ)

/-- Python slice semantics of l[:k] for an integer k: a nonnegative k takes
the first k entries, a negative k stops at len(l) + k, dropping the last
entries. -/
def pySlice (l : List Candidate) (k : ℤ) : List Candidate :=
  if 0 ≤ k then l.take k.toNat else l.take (l.length - (-k).toNat)

/-- optimize_protocol with pick_k kept as the Python int it is
(source lines 44 to 71), covering the negative pick_k a caller could pass:
k = min(pick_k, len(pool)) can then be negative, KMeans raises on a
nonpositive cluster count, the fallback slice pool_sorted[:k] follows Python
negative-slice semantics, and range(k) in the cluster loop is empty for
nonpositive k, which k.toNat reproduces. Agreement with optimize_protocol on
nonnegative pick_k is proved below. -/
def optimize_protocol_int (po : PowerOracle) (km : KmOracleInt)
    (parsed : Option ℤ) (g : Rng) (pool_size : ℕ) (pick_k : ℤ) :
    Except PyErr (List Candidate) :=
  match genPool po parsed (1 / 5) g pool_size with
  | Except.error e => Except.error e
  | Except.ok pool =>
    let k : ℤ := min pick_k (pool.length : ℤ)
    match km (features pool) k with
    | Except.error _ => Except.ok (pySlice (sortByScoreDesc pool) k)
    | Except.ok labels =>
      if pool.length ≤ labels.length then selectReps pool labels k.toNat
      else Except.error PyErr.indexError

/-- An integer-count clustering routine that always raises. -/
def kmIntFail : KmOracleInt := fun _ _ => Except.error ()

/-- A power routine that always raises. -/
def poFail : PowerOracle := fun _ _ _ => Except.error ()

/-- A power routine that returns one half everywhere. -/
def poHalf : PowerOracle := fun _ _ _ => Except.ok (1 / 2)

/-- A power routine that returns 2 over 75 at nobs1 equal 120 and 0 elsewhere,
chosen so that sample sizes 240 and 160 at looseness 0 tie on score. -/
def poTie : PowerOracle := fun _ n _ =>
  if n = 120 then Except.ok (2 / 75) else Except.ok 0

/-- A clustering routine that always raises. -/
def kmFail : KmOracle := fun _ _ => Except.error ()

/-- A clustering outcome assigning label 0 to every row: what a successful
KMeans fit reports on duplicate rows when fewer distinct clusters than
requested are found, a condition sklearn signals with a ConvergenceWarning,
not an exception. -/
def kmConst00 : KmOracle := fun _ _ => Except.ok [0, 0]

/-- The all-zero random tape. -/
def rng0 : Rng := fun _ => 0

/-- The constant-40 random tape. -/
def rng40 : Rng := fun _ => 40

/-- A tape whose first draw is 80 and whose later draws are 0. -/
def rngTie : Rng := fun i => if i = 0 then 80 else 0

/-- The candidate generated from the default baseline by the all-zero tape
when the power routine raises. -/
def c160 : Candidate := ⟨160, 0, 1, 46 / 125⟩

/-- The candidate generated from the default baseline by the constant-40 tape
when the power routine raises. -/
def c200 : Candidate := ⟨200, 1, 3 / 2, 8 / 25⟩

/-- The high-sample-size candidate generated first by the rngTie tape under
poTie; it ties c160 on score. -/
def cHi : Candidate := ⟨240, 0, 1, 46 / 125⟩

/-- The candidate generated from the default baseline by the all-zero tape
when the power routine returns one half. -/
def cHalf : Candidate := ⟨160, 0, 1, 167 / 250⟩

/-- Clamp as written in the spec: clamp(v, lo, hi). -/
def specClamp (v lo hi : ℚ) : ℚ := min hi (max lo v)

/-- Spec-side characterization of the representative tie-break that the code
implements: the first member in list order attaining the maximal score. -/
def specFirstMaxByPoolOrder : List Candidate → Option Candidate
  | [] => none
  | c :: l =>
    match specFirstMaxByPoolOrder l with
    | none => some c
    | some m => if c.score < m.score then some m else some c

/-- The list is sorted by descending score. -/
def ScoreSortedDesc (l : List Candidate) : Prop := l.Sorted scoreGE

/-! ### Generic helper lemmas about the embedding combinators -/

theorem mapExcept_ok_forall₂ {α β : Type} {f : α → Except PyErr β} :
    ∀ {l : List α} {ys : List β}, mapExcept f l = Except.ok ys →
      List.Forall₂ (fun a y => f a = Except.ok y) l ys := by
  intro l
  induction l with
  | nil =>
    intro ys h
    unfold mapExcept at h
    cases h
    exact List.Forall₂.nil
  | cons a l ih =>
    intro ys h
    unfold mapExcept at h
    cases hfa : f a with
    | error e => rw [hfa] at h; cases h
    | ok b =>
      rw [hfa] at h
      cases hrec : mapExcept f l with
      | error e => rw [hrec] at h; cases h
      | ok bs =>
        rw [hrec] at h
        cases h
        exact List.Forall₂.cons hfa (ih hrec)

theorem mapExcept_ok_length {α β : Type} {f : α → Except PyErr β} {l : List α}
    {ys : List β} (h : mapExcept f l = Except.ok ys) : ys.length = l.length :=
  (List.Forall₂.length_eq (mapExcept_ok_forall₂ h)).symm

theorem mapExcept_ok_of_forall {α β : Type} (f : α → Except PyErr β) (gf : α → β) :
    ∀ l : List α, (∀ a, a ∈ l → f a = Except.ok (gf a)) →
      mapExcept f l = Except.ok (l.map gf)
  | [], _ => rfl
  | a :: l, h => by
    unfold mapExcept
    rw [h a (List.mem_cons_self a l)]
    rw [mapExcept_ok_of_forall f gf l (fun b hb => h b (List.mem_cons_of_mem a hb))]
    rfl

theorem forall₂_mem_right {α β : Type} {R : α → β → Prop} :
    ∀ {as : List α} {bs : List β}, List.Forall₂ R as bs → ∀ b, b ∈ bs →
      ∃ a, a ∈ as ∧ R a b := by
  intro as bs h
  induction h with
  | nil => intro b hb; cases hb
  | cons hR _ ih =>
    intro b hb
    cases List.mem_cons.mp hb with
    | inl heq =>
      subst heq
      exact ⟨_, List.mem_cons_self _ _, hR⟩
    | inr hb2 =>
      obtain ⟨a, ha, hr⟩ := ih b hb2
      exact ⟨a, List.mem_cons_of_mem _ ha, hr⟩

theorem subperm_append_both {α : Type} {a b c d : List α} (h1 : a <+~ b)
    (h2 : c <+~ d) : a ++ c <+~ b ++ d := by
  obtain ⟨a1, pa, sa⟩ := h1
  obtain ⟨c1, pc, sc⟩ := h2
  exact ⟨a1 ++ c1, List.Perm.append pa pc, List.Sublist.append sa sc⟩

theorem filter_append_filter_perm {α : Type} {p q : α → Bool}
    (hpq : ∀ x, p x = true → q x = false) :
    ∀ l : List α, l.filter p ++ l.filter q ~ l.filter (fun x => p x || q x)
  | [] => by simp
  | a :: l => by
    cases hp : p a with
    | true =>
      have hq : q a = false := hpq a hp
      simp only [List.filter_cons, hp, hq, Bool.true_or, if_true, List.cons_append]
      exact (filter_append_filter_perm hpq l).cons a
    | false =>
      cases hq : q a with
      | true =>
        simp only [List.filter_cons, hp, hq, Bool.false_or, if_true, if_false]
        exact List.perm_middle.trans ((filter_append_filter_perm hpq l).cons a)
      | false =>
        simp only [List.filter_cons, hp, hq, Bool.false_or, if_false]
        exact filter_append_filter_perm hpq l

theorem flatten_filters_perm {α : Type} (zp : List (α × ℕ)) :
    ∀ labs : List ℕ, labs.Nodup →
      (labs.map (fun lab => zp.filter (fun p => decide (p.2 = lab)))).flatten ~
        zp.filter (fun p => decide (p.2 ∈ labs))
  | [], _ => by simp
  | a :: labs, hnd => by
    have ha : a ∉ labs := (List.nodup_cons.mp hnd).1
    have IH := flatten_filters_perm zp labs (List.nodup_cons.mp hnd).2
    simp only [List.map_cons, List.flatten_cons]
    have hdisj : ∀ x : α × ℕ, decide (x.2 = a) = true → decide (x.2 ∈ labs) = false := by
      intro x hx
      have hx2 : x.2 = a := of_decide_eq_true hx
      rw [hx2]
      exact decide_eq_false ha
    refine (List.Perm.append (List.Perm.refl _) IH).trans ?_
    refine (filter_append_filter_perm hdisj zp).trans ?_
    have hfun : (fun x : α × ℕ => decide (x.2 = a) || decide (x.2 ∈ labs)) =
        fun x : α × ℕ => decide (x.2 ∈ a :: labs) := by
      funext x
      simp [List.mem_cons]
    rw [hfun]

theorem forall₂_mem_subperm_flatten {α : Type} {mems : ℕ → List α} :
    ∀ {labs : List ℕ} {reps : List α},
      List.Forall₂ (fun lab y => y ∈ mems lab) labs reps →
      reps <+~ (labs.map mems).flatten := by
  intro labs reps h
  induction h with
  | nil => exact List.nil_subperm
  | cons hmem _ ih =>
    simp only [List.map_cons, List.flatten_cons]
    exact subperm_append_both (List.singleton_subperm_iff.mpr hmem) ih

theorem map_fst_zip_sublist {α β : Type} : ∀ (l : List α) (l2 : List β),
    ((l.zip l2).map Prod.fst) <+ l
  | [], _ => by simp
  | _ :: _, [] => by simp
  | a :: l, b :: l2 => by
    simp only [List.zip_cons_cons, List.map_cons]
    exact List.Sublist.cons₂ a (map_fst_zip_sublist l l2)

/-! ### Sorting and selection lemmas -/

theorem sortByScoreDesc_sorted (l : List Candidate) :
    ScoreSortedDesc (sortByScoreDesc l) :=
  List.sorted_insertionSort scoreGE l

theorem sortByScoreDesc_perm (l : List Candidate) : sortByScoreDesc l ~ l :=
  List.perm_insertionSort scoreGE l

theorem ScoreSortedDesc.take {l : List Candidate} (h : ScoreSortedDesc l)
    (n : ℕ) : ScoreSortedDesc (l.take n) :=
  List.Pairwise.sublist (List.take_sublist n l) h

theorem pickRep_ok_mem {m : List Candidate} {c : Candidate}
    (h : pickRep m = Except.ok c) : c ∈ m := by
  unfold pickRep at h
  cases hs : sortByScoreDesc m with
  | nil => rw [hs] at h; cases h
  | cons c0 rest =>
    rw [hs] at h
    have hc : c0 = c := by injection h
    subst hc
    have hmem : c0 ∈ sortByScoreDesc m := by
      rw [hs]
      exact List.mem_cons_self _ _
    exact ((sortByScoreDesc_perm m).mem_iff).mp hmem

theorem head?_orderedInsert (c : Candidate) (s : List Candidate) :
    (List.orderedInsert scoreGE c s).head? =
      match s.head? with
      | none => some c
      | some x => if scoreGE c x then some c else some x := by
  cases s with
  | nil => rfl
  | cons x xs =>
    by_cases h : scoreGE c x
    · simp [List.orderedInsert, h]
    · simp [List.orderedInsert, h]

theorem head?_sortByScoreDesc :
    ∀ l : List Candidate, (sortByScoreDesc l).head? = specFirstMaxByPoolOrder l
  | [] => rfl
  | c :: l => by
    have IH := head?_sortByScoreDesc l
    unfold sortByScoreDesc at IH
    unfold sortByScoreDesc
    simp only [List.insertionSort]
    rw [head?_orderedInsert, IH]
    cases hm : specFirstMaxByPoolOrder l with
    | none => simp only [specFirstMaxByPoolOrder, hm]
    | some m =>
      simp only [specFirstMaxByPoolOrder, hm]
      by_cases h : scoreGE c m
      · rw [if_pos h, if_neg (not_lt.mpr h)]
      · rw [if_neg h, if_pos (not_le.mp h)]

/-! ### Inversion of candidate generation -/

theorem generate_candidate_ok {po : PowerOracle} {parsed : Option ℤ}
    {variation_frac : ℚ} {g : Rng} {j : ℕ} {c : Candidate}
    (h : generate_candidate po parsed variation_frac g j = Except.ok c) :
    0 ≤ pyInt ((baseN parsed : ℚ) * variation_frac) ∧
    (∃ u : ℤ, -pyInt ((baseN parsed : ℚ) * variation_frac) ≤ u ∧
        u ≤ pyInt ((baseN parsed : ℚ) * variation_frac) ∧
        c.sample_size = max 20 (baseN parsed + u)) ∧
    (c.looseness = 0 ∨ c.looseness = 1 ∨ c.looseness = 2) ∧
    (c.rand_rat = 1 ∨ c.rand_rat = 3 / 2 ∨ c.rand_rat = 2) ∧
    c.score = score_design po c.sample_size c.looseness (4 / 10) := by
  simp only [generate_candidate, randint] at h
  set delta := pyInt ((baseN parsed : ℚ) * variation_frac) with hdelta
  by_cases hle : -delta ≤ delta
  · rw [if_pos hle] at h
    dsimp only at h
    injection h with h2
    subst h2
    have hd0 : 0 ≤ delta := by omega
    have hmod0 : 0 ≤ (g (3 * j) : ℤ) % (delta - -delta + 1) :=
      Int.emod_nonneg _ (by omega)
    have hmod1 : (g (3 * j) : ℤ) % (delta - -delta + 1) < delta - -delta + 1 :=
      Int.emod_lt_of_pos _ (by omega)
    refine ⟨hd0, ⟨-delta + (g (3 * j) : ℤ) % (delta - -delta + 1),
      by omega, by omega, rfl⟩, ?_, ?_, rfl⟩
    · have hm : g (3 * j + 1) % 3 < 3 := Nat.mod_lt _ (by omega)
      rcases hval : g (3 * j + 1) % 3 with _ | _ | _ | n
      · left; rfl
      · right; left; rfl
      · right; right; rfl
      · rw [hval] at hm; omega
    · have hm : g (3 * j + 2) % 3 < 3 := Nat.mod_lt _ (by omega)
      rcases hval : g (3 * j + 2) % 3 with _ | _ | _ | n
      · left; rfl
      · right; left; rfl
      · right; right; rfl
      · rw [hval] at hm; omega
  · rw [if_neg hle] at h
    cases h

/-! ### Structure of optimize_protocol runs -/

theorem optimize_fallback {po : PowerOracle} {km : KmOracle} {parsed : Option ℤ}
    {g : Rng} {ps pk : ℕ} {pool : List Candidate}
    (hpool : genPool po parsed (1 / 5) g ps = Except.ok pool)
    (hkm : km (features pool) (min pk pool.length) = Except.error ()) :
    optimize_protocol po km parsed g ps pk =
      Except.ok ((sortByScoreDesc pool).take (min pk pool.length)) := by
  unfold optimize_protocol
  rw [hpool]
  dsimp only
  rw [hkm]

theorem optimize_ok_struct {po : PowerOracle} {km : KmOracle} {parsed : Option ℤ}
    {g : Rng} {ps pk : ℕ} {l : List Candidate}
    (h : optimize_protocol po km parsed g ps pk = Except.ok l) :
    ∃ pool, genPool po parsed (1 / 5) g ps = Except.ok pool ∧ pool.length = ps ∧
      l.length = min pk ps ∧ ScoreSortedDesc l ∧ l <+~ pool := by
  unfold optimize_protocol at h
  cases hpool : genPool po parsed (1 / 5) g ps with
  | error e => rw [hpool] at h; cases h
  | ok pool =>
    rw [hpool] at h
    dsimp only at h
    have hlen : pool.length = ps := by
      have hl2 := mapExcept_ok_length hpool
      simpa using hl2
    refine ⟨pool, rfl, hlen, ?_⟩
    cases hkm : km (features pool) (min pk pool.length) with
    | error u =>
      rw [hkm] at h
      have hl : l = (sortByScoreDesc pool).take (min pk pool.length) := by
        injection h with h2
        exact h2.symm
      subst hl
      refine ⟨?_, ?_, ?_⟩
      · rw [List.length_take, (sortByScoreDesc_perm pool).length_eq, hlen]
        omega
      · exact (sortByScoreDesc_sorted pool).take _
      · exact ((List.take_sublist _ _).subperm).trans (sortByScoreDesc_perm pool).subperm
    | ok labels =>
      rw [hkm] at h
      dsimp only at h
      by_cases hguard : pool.length ≤ labels.length
      · rw [if_pos hguard] at h
        unfold selectReps at h
        cases hsel : mapExcept (fun lab => pickRep (clusterMembers pool labels lab))
            (List.range (min pk pool.length)) with
        | error e => rw [hsel] at h; cases h
        | ok reps =>
          rw [hsel] at h
          have hl : l = sortByScoreDesc reps := by
            injection h with h2
            exact h2.symm
          subst hl
          have hf2 := mapExcept_ok_forall₂ hsel
          have hlenreps : reps.length = min pk pool.length := by
            have := hf2.length_eq
            simpa using this.symm
          have hmem : List.Forall₂ (fun lab y => y ∈ clusterMembers pool labels lab)
              (List.range (min pk pool.length)) reps :=
            hf2.imp (fun _ _ hx => pickRep_ok_mem hx)
          have hsub1 := forall₂_mem_subperm_flatten hmem
          have heq : ((List.range (min pk pool.length)).map
                (clusterMembers pool labels)).flatten =
              (((List.range (min pk pool.length)).map
                (fun lab => (pool.zip labels).filter
                  (fun p => decide (p.2 = lab)))).flatten).map Prod.fst := by
            rw [List.map_flatten, List.map_map]
            rfl
          have hsub2 := flatten_filters_perm (pool.zip labels)
            (List.range (min pk pool.length)) (List.nodup_range _)
          have hsub3 : reps <+~ pool := by
            rw [heq] at hsub1
            refine hsub1.trans (List.Subperm.trans
              (List.Perm.subperm (hsub2.map Prod.fst)) ?_)
            refine List.Sublist.subperm (List.Sublist.trans ?_ (map_fst_zip_sublist pool labels))
            exact List.Sublist.map Prod.fst (List.filter_sublist _)
          refine ⟨?_, ?_, ?_⟩
          · rw [(sortByScoreDesc_perm reps).length_eq, hlenreps, hlen]
          · exact sortByScoreDesc_sorted reps
          · exact (sortByScoreDesc_perm reps).subperm.trans hsub3
      · rw [if_neg hguard] at h
        cases h

/-! ### Concrete evaluations used by counterexamples and witnesses -/

theorem gen_c160 (j : ℕ) : generate_candidate poFail none (1 / 5) rng0 j = Except.ok c160 := by
  have hd : pyInt ((baseN none : ℚ) * (1 / 5)) = 40 := by norm_num [baseN, pyInt]
  simp only [generate_candidate, hd, randint, rng0, c160]
  norm_num [score_design, compute_power, poFail, feasibilityOf, feasibilityRaw,
    baseN, Candidate.mk.injEq]

theorem gen_c200 (j : ℕ) : generate_candidate poFail none (1 / 5) rng40 j = Except.ok c200 := by
  have hd : pyInt ((baseN none : ℚ) * (1 / 5)) = 40 := by norm_num [baseN, pyInt]
  simp only [generate_candidate, hd, randint, rng40, c200]
  norm_num [score_design, compute_power, poFail, feasibilityOf, feasibilityRaw,
    baseN, Candidate.mk.injEq]

theorem gen_cHi : generate_candidate poTie none (1 / 5) rngTie 0 = Except.ok cHi := by
  have hd : pyInt ((baseN none : ℚ) * (1 / 5)) = 40 := by norm_num [baseN, pyInt]
  simp only [generate_candidate, hd, randint, rngTie, cHi]
  norm_num [score_design, compute_power, poTie, pyInt, feasibilityOf, feasibilityRaw,
    baseN, Candidate.mk.injEq]

theorem gen_tie1 : generate_candidate poTie none (1 / 5) rngTie 1 = Except.ok c160 := by
  have hd : pyInt ((baseN none : ℚ) * (1 / 5)) = 40 := by norm_num [baseN, pyInt]
  simp only [generate_candidate, hd, randint, rngTie, c160]
  norm_num [score_design, compute_power, poTie, pyInt, feasibilityOf, feasibilityRaw,
    baseN, Candidate.mk.injEq]

theorem gen_cHalf (j : ℕ) :
    generate_candidate poHalf none (1 / 5) rng0 j = Except.ok cHalf := by
  have hd : pyInt ((baseN none : ℚ) * (1 / 5)) = 40 := by norm_num [baseN, pyInt]
  simp only [generate_candidate, hd, randint, rng0, cHalf]
  norm_num [score_design, compute_power, poHalf, pyInt, feasibilityOf, feasibilityRaw,
    baseN, Candidate.mk.injEq]

theorem genPool_rng0_1 : genPool poFail none (1 / 5) rng0 1 = Except.ok [c160] := by
  unfold genPool
  rw [mapExcept_ok_of_forall _ (fun _ => c160) _ (fun a _ => gen_c160 a)]
  rfl

theorem genPool_rng0_2 : genPool poFail none (1 / 5) rng0 2 = Except.ok [c160, c160] := by
  unfold genPool
  rw [mapExcept_ok_of_forall _ (fun _ => c160) _ (fun a _ => gen_c160 a)]
  rfl

theorem genPool_rng40_1 : genPool poFail none (1 / 5) rng40 1 = Except.ok [c200] := by
  unfold genPool
  rw [mapExcept_ok_of_forall _ (fun _ => c200) _ (fun a _ => gen_c200 a)]
  rfl

theorem genPool_half_1 : genPool poHalf none (1 / 5) rng0 1 = Except.ok [cHalf] := by
  unfold genPool
  rw [mapExcept_ok_of_forall _ (fun _ => cHalf) _ (fun a _ => gen_cHalf a)]
  rfl

theorem genPool_tie_2 : genPool poTie none (1 / 5) rngTie 2 = Except.ok [cHi, c160] := by
  unfold genPool
  rw [show List.range 2 = [0, 1] from rfl]
  simp only [mapExcept, gen_cHi, gen_tie1]

theorem sort_c160_c160 : sortByScoreDesc [c160, c160] = [c160, c160] := by
  unfold sortByScoreDesc
  simp [List.insertionSort, List.orderedInsert, scoreGE]

theorem sort_cHi_c160 : sortByScoreDesc [cHi, c160] = [cHi, c160] := by
  unfold sortByScoreDesc
  simp [List.insertionSort, List.orderedInsert, scoreGE, cHi, c160]

theorem opt_fail_rng0_11 :
    optimize_protocol poFail kmFail none rng0 1 1 = Except.ok [c160] := by
  rw [optimize_fallback genPool_rng0_1 rfl]
  rfl

theorem opt_fail_rng40_11 :
    optimize_protocol poFail kmFail none rng40 1 1 = Except.ok [c200] := by
  rw [optimize_fallback genPool_rng40_1 rfl]
  rfl

theorem opt_half_11 :
    optimize_protocol poHalf kmFail none rng0 1 1 = Except.ok [cHalf] := by
  rw [optimize_fallback genPool_half_1 rfl]
  rfl

theorem selectReps_idx_err :
    selectReps [c160, c160] [0, 0] 2 = Except.error PyErr.indexError := by
  have hcm0 : clusterMembers [c160, c160] [0, 0] 0 = [c160, c160] := by
    simp [clusterMembers]
  have hcm1 : clusterMembers [c160, c160] [0, 0] 1 = [] := by
    simp [clusterMembers]
  unfold selectReps
  rw [show List.range 2 = [0, 1] from rfl]
  simp only [mapExcept, hcm0, hcm1, pickRep, sort_c160_c160]
  rfl

theorem opt_idx_err :
    optimize_protocol poFail kmConst00 none rng0 2 5 = Except.error PyErr.indexError := by
  unfold optimize_protocol
  rw [genPool_rng0_2]
  dsimp only [kmConst00]
  norm_num
  exact selectReps_idx_err

theorem opt_tie :
    optimize_protocol poTie kmConst00 none rngTie 2 1 = Except.ok [cHi] := by
  have hcm0 : clusterMembers [cHi, c160] [0, 0] 0 = [cHi, c160] := by
    simp [clusterMembers]
  have hsel : selectReps [cHi, c160] [0, 0] 1 = Except.ok [cHi] := by
    unfold selectReps
    rw [show List.range 1 = [0] from rfl]
    simp only [mapExcept, hcm0, pickRep, sort_cHi_c160]
    rfl
  unfold optimize_protocol
  rw [genPool_tie_2]
  dsimp only [kmConst00]
  norm_num
  exact hsel

theorem opt_cluster_21 :
    optimize_protocol poFail kmConst00 none rng0 2 1 = Except.ok [c160] := by
  have hcm0 : clusterMembers [c160, c160] [0, 0] 0 = [c160, c160] := by
    simp [clusterMembers]
  have hsel : selectReps [c160, c160] [0, 0] 1 = Except.ok [c160] := by
    unfold selectReps
    rw [show List.range 1 = [0] from rfl]
    simp only [mapExcept, hcm0, pickRep, sort_c160_c160]
    rfl
  unfold optimize_protocol
  rw [genPool_rng0_2]
  dsimp only [kmConst00]
  norm_num
  exact hsel

/-! ### Claim theorems -/

/-- Claim C1 counterexample: two optimize_protocol runs with identical
descriptor and configuration but different global random-module states return
different shortlists, so the draws are consumed from hidden global random
state; the source functions take no generator or seed argument at all. -/
theorem C1_cex :
    optimize_protocol poFail kmFail none rng0 1 1 ≠
      optimize_protocol poFail kmFail none rng40 1 1 := by
  rw [opt_fail_rng0_11, opt_fail_rng40_11]
  intro h
  injection h with h2
  injection h2 with h3 h4
  have h5 := congrArg Candidate.sample_size h3
  norm_num [c160, c200] at h5

/-- Claim C1 as amended: optimize_protocol is a pure function of the
descriptor, the configuration, the two external numeric routines and the
global random-module state, so two runs with identical arguments and
identical global random state yield identical shortlists. Determinism holds
only relative to that hidden global state, not relative to a supplied seed. -/
theorem C1_determinism :
    ∀ (po : PowerOracle) (km : KmOracle) (parsed : Option ℤ) (g g2 : Rng)
      (ps pk : ℕ), g = g2 →
      optimize_protocol po km parsed g ps pk =
        optimize_protocol po km parsed g2 ps pk := by
  intro po km parsed g g2 ps pk h
  rw [h]

/-- Witness for the amended claim C1 at a concrete tape. -/
theorem C1_determinism_witness :
    optimize_protocol poFail kmFail none rng0 1 1 =
      optimize_protocol poFail kmFail none rng0 1 1 :=
  C1_determinism poFail kmFail none rng0 rng0 1 1 rfl

/-- Claim C2 counterexample: with pool size 2 and pick 5, a clustering fit
that succeeds on the two identical feature rows while assigning both to
cluster 0 leaves cluster 1 empty, and the member subscript raises IndexError
outside the try block: the error propagates to the caller instead of the
score-sorted fallback being used. -/
theorem C2_cex :
    optimize_protocol poFail kmConst00 none rng0 2 5 =
      Except.error PyErr.indexError :=
  opt_idx_err

/-- Claim C2 as amended: only a raised clustering exception triggers the
fallback; whenever the KMeans fit raises, optimize_protocol returns the top
min(pick_k, pool size) entries of the pool sorted descending by score and no
clustering exception reaches the caller. A successful fit with an empty
cluster instead raises IndexError as in the counterexample. -/
theorem C2_fallback_on_raise :
    ∀ (po : PowerOracle) (km : KmOracle) (parsed : Option ℤ) (g : Rng)
      (ps pk : ℕ) (pool : List Candidate),
      genPool po parsed (1 / 5) g ps = Except.ok pool →
      km (features pool) (min pk pool.length) = Except.error () →
      optimize_protocol po km parsed g ps pk =
        Except.ok ((sortByScoreDesc pool).take (min pk pool.length)) :=
  fun _ _ _ _ _ _ _ hpool hkm => optimize_fallback hpool hkm

/-- Witness for the amended claim C2 at pool size 2 and pick 5 with a raising
clustering routine. -/
theorem C2_fallback_on_raise_witness :
    optimize_protocol poFail kmFail none rng0 2 5 =
      Except.ok ((sortByScoreDesc [c160, c160]).take (min 5 [c160, c160].length)) :=
  C2_fallback_on_raise poFail kmFail none rng0 2 5 [c160, c160] genPool_rng0_2 rfl

/-- Claim C3 counterexample: the dict returned by generate_candidate exposes
no power key and no feasibility key, so a Candidate does not expose power and
feasibility values as the claim states; only the combined score is stored. -/
theorem C3_cex : "power" ∉ candidateDictKeys ∧ "feasibility" ∉ candidateDictKeys := by
  constructor
  · simp [candidateDictKeys]
  · simp [candidateDictKeys]

/-- Claim C3 as amended: every candidate of every returned shortlist stores
score_design of its own sample size and looseness, the internally computed
feasibility lies between 0 and 1, and whenever the power routine only returns
values between 0 and 1 the stored score is 0.6 times power plus 0.4 times
feasibility and lies between 0 and 1. Power and feasibility themselves are
not exposed on the candidate. -/
theorem C3_score_contract :
    ∀ (po : PowerOracle) (km : KmOracle) (parsed : Option ℤ) (g : Rng)
      (ps pk : ℕ) (l : List Candidate) (c : Candidate),
      optimize_protocol po km parsed g ps pk = Except.ok l → c ∈ l →
      (∀ (e : ℚ) (n : ℤ) (a : ℚ) (p : ℚ), po e n a = Except.ok p → 0 ≤ p ∧ p ≤ 1) →
      c.score = score_design po c.sample_size c.looseness (4 / 10) ∧
      0 ≤ feasibilityOf c.sample_size c.looseness ∧
      feasibilityOf c.sample_size c.looseness ≤ 1 ∧
      0 ≤ c.score ∧ c.score ≤ 1 := by
  intro po km parsed g ps pk l c hopt hc hpo
  obtain ⟨pool, hpool, hplen, hllen, hsort, hsub⟩ := optimize_ok_struct hopt
  have hcpool : c ∈ pool := hsub.subset hc
  obtain ⟨j, hj, hgen⟩ := forall₂_mem_right (mapExcept_ok_forall₂ hpool) c hcpool
  obtain ⟨hd0, hex, hlo, hra, hscore⟩ := generate_candidate_ok hgen
  have hfeas0 : 0 ≤ feasibilityOf c.sample_size c.looseness := le_max_left _ _
  have hfeas1 : feasibilityOf c.sample_size c.looseness ≤ 1 :=
    max_le (by norm_num) (min_le_left _ _)
  have hpow : 0 ≤ compute_power po (4 / 10)
        (max 2 (pyInt ((c.sample_size : ℚ) / 2))) (1 / 20) ∧
      compute_power po (4 / 10)
        (max 2 (pyInt ((c.sample_size : ℚ) / 2))) (1 / 20) ≤ 1 := by
    unfold compute_power
    cases hpo2 : po (4 / 10) (max 2 (pyInt ((c.sample_size : ℚ) / 2))) (1 / 20) with
    | ok p => exact hpo _ _ _ _ hpo2
    | error u => norm_num
  refine ⟨hscore, hfeas0, hfeas1, ?_, ?_⟩
  · rw [hscore]
    simp only [score_design]
    linarith [hpow.1, hpow.2, hfeas0, hfeas1]
  · rw [hscore]
    simp only [score_design]
    linarith [hpow.1, hpow.2, hfeas0, hfeas1]

/-- Witness for the amended claim C3 on a concrete one-candidate run with a
power routine returning one half. -/
theorem C3_score_contract_witness :
    cHalf.score = score_design poHalf cHalf.sample_size cHalf.looseness (4 / 10) ∧
    0 ≤ feasibilityOf cHalf.sample_size cHalf.looseness ∧
    feasibilityOf cHalf.sample_size cHalf.looseness ≤ 1 ∧
    0 ≤ cHalf.score ∧ cHalf.score ≤ 1 :=
  C3_score_contract poHalf kmFail none rng0 1 1 [cHalf] cHalf opt_half_11
    (List.mem_cons_self _ _)
    (fun e n a p hp => by
      have h2 : (1 : ℚ) / 2 = p := by injection hp
      rw [← h2]
      norm_num)

/-- Claim C4 confirmed: for every sample size and looseness the clamped
feasibility computed during scoring equals the spec formula
clamp(1 - sample_size / 2000 - looseness * 0.1, 0, 1), and at sample size
2000 with looseness 3 it is exactly 0. -/
theorem C4_feasibility_formula :
    (∀ (ss : ℤ) (loose : ℕ),
      feasibilityOf ss loose =
        specClamp (1 - (ss : ℚ) / 2000 - (loose : ℚ) * (1 / 10)) 0 1) ∧
    feasibilityOf 2000 3 = 0 := by
  constructor
  · intro ss loose
    unfold feasibilityOf feasibilityRaw specClamp
    rw [min_max_distrib_left, min_eq_right (by norm_num : (0 : ℚ) ≤ 1)]
  · norm_num [feasibilityOf, feasibilityRaw]

/-- Claim C5 confirmed: whenever optimize_protocol returns a shortlist for
pool_size and pick_k at least 1, the generated pool has exactly pool_size
candidates, the shortlist length is exactly min(pick_k, pool_size), the
shortlist is sorted descending by score, and it is a subpermutation of the
pool, so its entries are pairwise distinct pool members. -/
theorem C5_shortlist_shape :
    ∀ (po : PowerOracle) (km : KmOracle) (parsed : Option ℤ) (g : Rng)
      (ps pk : ℕ) (l : List Candidate),
      1 ≤ ps → 1 ≤ pk →
      optimize_protocol po km parsed g ps pk = Except.ok l →
      ∃ pool, genPool po parsed (1 / 5) g ps = Except.ok pool ∧
        pool.length = ps ∧ l.length = min pk ps ∧ ScoreSortedDesc l ∧ l <+~ pool :=
  fun _ _ _ _ _ _ _ _ _ h => optimize_ok_struct h

/-- Witness for claim C5 on a concrete cluster-path run with pool size 2 and
pick 1. -/
theorem C5_shortlist_shape_witness :
    ∃ pool, genPool poFail none (1 / 5) rng0 2 = Except.ok pool ∧
      pool.length = 2 ∧ [c160].length = min 1 2 ∧ ScoreSortedDesc [c160] ∧
      [c160] <+~ pool :=
  C5_shortlist_shape poFail kmConst00 none rng0 2 1 [c160] (by norm_num) (by norm_num)
    opt_cluster_21

/-- Claim C6 counterexample: calling the engine with pool_size 0 does not
fail with any InvalidConfiguration error; the zero-cluster KMeans call raises,
the except branch absorbs it, and the engine returns an empty shortlist. -/
theorem C6_cex : optimize_protocol poFail kmFail none rng0 0 3 = Except.ok [] := by
  have hpool : genPool poFail none (1 / 5) rng0 0 = Except.ok [] := rfl
  rw [optimize_fallback hpool rfl]
  rfl

/-- Claim C6 as amended: the engine performs no configuration validation and
defines no InvalidConfiguration error. With pool_size 0 it returns an empty
shortlist through the clustering-exception fallback; with pick_k 0 it likewise
returns an empty shortlist after generating the full pool; with a negative
pick_k the clustering count min(pick_k, pool size) is negative, the fit
raises, and the fallback slice follows Python negative-slice semantics,
returning the sorted pool minus its last entries, a nonempty shortlist
whenever the pool is longer than the dropped suffix; and a variation fraction
that makes delta negative surfaces as the ValueError that randint raises on an
empty range, not as a configuration error. The integer-count run agrees with
the natural-count run on every nonnegative pick_k. -/
theorem C6_no_validation :
    (∀ (po : PowerOracle) (km : KmOracle) (g : Rng) (pk : ℕ),
      km [] 0 = Except.error () →
      optimize_protocol po km none g 0 pk = Except.ok []) ∧
    (∀ (po : PowerOracle) (km : KmOracle) (parsed : Option ℤ) (g : Rng)
      (ps : ℕ) (pool : List Candidate),
      genPool po parsed (1 / 5) g ps = Except.ok pool →
      km (features pool) 0 = Except.error () →
      optimize_protocol po km parsed g ps 0 = Except.ok []) ∧
    (∀ (po : PowerOracle) (km : KmOracleInt) (parsed : Option ℤ) (g : Rng)
      (ps : ℕ) (pool : List Candidate) (pk : ℤ), pk < 0 →
      genPool po parsed (1 / 5) g ps = Except.ok pool →
      km (features pool) (min pk (pool.length : ℤ)) = Except.error () →
      optimize_protocol_int po km parsed g ps pk =
        Except.ok ((sortByScoreDesc pool).take (pool.length - pk.natAbs))) ∧
    (∀ (po : PowerOracle) (km : KmOracleInt) (parsed : Option ℤ) (g : Rng)
      (ps pk : ℕ),
      optimize_protocol_int po km parsed g ps (pk : ℤ) =
        optimize_protocol po (fun X k => km X (k : ℤ)) parsed g ps pk) ∧
    (∀ (po : PowerOracle) (parsed : Option ℤ) (variation_frac : ℚ) (g : Rng) (j : ℕ),
      pyInt ((baseN parsed : ℚ) * variation_frac) < 0 →
      generate_candidate po parsed variation_frac g j =
        Except.error PyErr.valueError) := by
  refine ⟨?_, ?_, ?_, ?_, ?_⟩
  · intro po km g pk hkm
    have hkm2 : km (features ([] : List Candidate))
        (min pk ([] : List Candidate).length) = Except.error () := by
      simpa [features] using hkm
    have hpool : genPool po none (1 / 5) g 0 = Except.ok [] := rfl
    rw [optimize_fallback hpool hkm2]
    simp
  · intro po km parsed g ps pool hpool hkm
    have hkm2 : km (features pool) (min 0 pool.length) = Except.error () := by
      simpa [Nat.zero_min] using hkm
    rw [optimize_fallback hpool hkm2]
    simp [Nat.zero_min]
  · intro po km parsed g ps pool pk hpk hpool hkm
    have hmin : min pk (pool.length : ℤ) = pk :=
      min_eq_left (le_trans hpk.le (Int.natCast_nonneg _))
    have hkm2 : km (features pool) pk = Except.error () := by
      rw [hmin] at hkm
      exact hkm
    unfold optimize_protocol_int
    rw [hpool]
    dsimp only
    rw [hmin, hkm2]
    unfold pySlice
    rw [if_neg (not_le.mpr hpk)]
    rw [(sortByScoreDesc_perm pool).length_eq]
    have htn : (-pk).toNat = pk.natAbs := by omega
    rw [htn]
  · intro po km parsed g ps pk
    unfold optimize_protocol_int optimize_protocol
    cases hpool : genPool po parsed (1 / 5) g ps with
    | error e => rfl
    | ok pool =>
      dsimp only
      have hk : min (pk : ℤ) ((pool.length : ℕ) : ℤ) = ((min pk pool.length : ℕ) : ℤ) := by
        omega
      rw [hk]
      have htn : (((min pk pool.length : ℕ) : ℤ)).toNat = min pk pool.length := by
        omega
      cases hkm : km (features pool) ((min pk pool.length : ℕ) : ℤ) with
      | error u =>
        dsimp only
        unfold pySlice
        rw [if_pos (Int.natCast_nonneg _), htn]
      | ok labels =>
        dsimp only
        rw [htn]
  · intro po parsed vf g j hneg
    simp only [generate_candidate, randint]
    rw [if_neg (by omega :
      ¬(-pyInt ((baseN parsed : ℚ) * vf) ≤ pyInt ((baseN parsed : ℚ) * vf)))]

/-- Witness for the amended claim C6 at concrete configurations, including the
negative pick_k run that returns a nonempty truncated shortlist. -/
theorem C6_no_validation_witness :
    optimize_protocol poFail kmFail none rng0 0 3 = Except.ok [] ∧
    optimize_protocol poFail kmFail none rng0 1 0 = Except.ok [] ∧
    optimize_protocol_int poFail kmIntFail none rng0 2 (-1) =
      Except.ok ((sortByScoreDesc [c160, c160]).take
        ([c160, c160].length - (-1 : ℤ).natAbs)) ∧
    optimize_protocol_int poFail kmIntFail none rng0 1 ((1 : ℕ) : ℤ) =
      optimize_protocol poFail (fun X k => kmIntFail X (k : ℤ)) none rng0 1 1 ∧
    generate_candidate poFail none (-1) rng0 0 = Except.error PyErr.valueError :=
  ⟨C6_no_validation.1 poFail kmFail rng0 3 rfl,
   C6_no_validation.2.1 poFail kmFail none rng0 1 [c160] genPool_rng0_1 rfl,
   C6_no_validation.2.2.1 poFail kmIntFail none rng0 2 [c160, c160] (-1) (by norm_num)
     genPool_rng0_2 rfl,
   C6_no_validation.2.2.2.1 poFail kmIntFail none rng0 1 1,
   C6_no_validation.2.2.2.2 poFail none (-1) rng0 0 (by
    have hc : ((baseN none : ℚ) * (-1)) = ((-200 : ℤ) : ℚ) := by norm_num [baseN]
    rw [pyInt, hc, if_neg (by norm_num), Int.ceil_intCast]
    norm_num)⟩

/-- Claim C7 confirmed: for every nonnegative total sample size N the scoring
step calls the power estimator with per-arm size exactly max(2, floor(N / 2)),
and whenever the underlying power routine raises, compute_power returns 0
instead of propagating the failure. -/
theorem C7_power_edge_policy :
    ∀ (po : PowerOracle) (N : ℤ) (loose : ℕ) (est : ℚ), 0 ≤ N →
      score_design po N loose est =
        6 / 10 * compute_power po est (max 2 ⌊(N : ℚ) / 2⌋) (1 / 20) +
          4 / 10 * feasibilityOf N loose ∧
      (∀ (e : ℚ) (n : ℤ) (a : ℚ), po e n a = Except.error () →
        compute_power po e n a = 0) := by
  intro po N loose est hN
  constructor
  · have hfl : pyInt ((N : ℚ) / 2) = ⌊(N : ℚ) / 2⌋ := by
      rw [pyInt, if_pos (div_nonneg (by exact_mod_cast hN) (by norm_num))]
    simp only [score_design]
    rw [hfl]
  · intro e n a he
    unfold compute_power
    rw [he]

/-- Witness for claim C7 at total sample size 200. -/
theorem C7_power_edge_policy_witness :
    (score_design poFail 200 0 (4 / 10) =
      6 / 10 * compute_power poFail (4 / 10) (max 2 ⌊((200 : ℤ) : ℚ) / 2⌋) (1 / 20) +
        4 / 10 * feasibilityOf 200 0) ∧
    (∀ (e : ℚ) (n : ℤ) (a : ℚ), poFail e n a = Except.error () →
      compute_power poFail e n a = 0) :=
  C7_power_edge_policy poFail 200 0 (4 / 10) (by norm_num)

/-- Claim C8 counterexample: a concrete run in which the single cluster holds
two members tied on score, with the first-generated member having the larger
sample size 240; the engine selects that first member, not the tied member
with the lower sample size 160, refuting the lowest-sample-size tie-break. -/
theorem C8_cex :
    optimize_protocol poTie kmConst00 none rngTie 2 1 = Except.ok [cHi] ∧
    genPool poTie none (1 / 5) rngTie 2 = Except.ok [cHi, c160] ∧
    c160.score = cHi.score ∧ c160.sample_size < cHi.sample_size :=
  ⟨opt_tie, genPool_tie_2, by norm_num [c160, cHi], by norm_num [c160, cHi]⟩

/-- Claim C8 as amended: the representative of a cluster is the first member
in pool order attaining the maximal score; ties on score are broken by
original pool order alone and sample size plays no role. The cluster member
list is an order-preserving sublist of the pool, so member order is pool
order. -/
theorem C8_tiebreak_pool_order :
    (∀ members : List Candidate,
      (sortByScoreDesc members).head? = specFirstMaxByPoolOrder members) ∧
    (∀ members : List Candidate,
      pickRep members =
        match specFirstMaxByPoolOrder members with
        | none => Except.error PyErr.indexError
        | some c => Except.ok c) ∧
    (∀ (pool : List Candidate) (labels : List ℕ) (lab : ℕ),
      clusterMembers pool labels lab <+ pool) := by
  refine ⟨head?_sortByScoreDesc, ?_, ?_⟩
  · intro m
    have h1 := head?_sortByScoreDesc m
    unfold pickRep
    cases hs : sortByScoreDesc m with
    | nil =>
      rw [hs] at h1
      simp only [List.head?_nil] at h1
      rw [← h1]
    | cons c0 rest =>
      rw [hs] at h1
      simp only [List.head?_cons] at h1
      rw [← h1]
  · intro pool labels lab
    unfold clusterMembers
    exact List.Sublist.trans
      (List.Sublist.map Prod.fst (List.filter_sublist _)) (map_fst_zip_sublist pool labels)

/-- Claim C9 confirmed: for every nonnegative baseline and nonnegative
variation fraction, every generated candidate has sample size
max(20, B + u) for some integer u between minus delta and delta where delta
is floor(B times f); looseness is drawn only from 0, 1, 2 and the
randomization ratio only from 1.0, 1.5, 2.0; and with B 200 and f 0.2 every
generated sample size lies between 160 and 240. -/
theorem C9_generation_bounds :
    ∀ (po : PowerOracle) (parsed : Option ℤ) (variation_frac : ℚ) (g : Rng)
      (j : ℕ) (c : Candidate),
      0 ≤ variation_frac → 0 ≤ baseN parsed →
      generate_candidate po parsed variation_frac g j = Except.ok c →
      (∃ u : ℤ, -⌊(baseN parsed : ℚ) * variation_frac⌋ ≤ u ∧
          u ≤ ⌊(baseN parsed : ℚ) * variation_frac⌋ ∧
          c.sample_size = max 20 (baseN parsed + u)) ∧
      (c.looseness = 0 ∨ c.looseness = 1 ∨ c.looseness = 2) ∧
      (c.rand_rat = 1 ∨ c.rand_rat = 3 / 2 ∨ c.rand_rat = 2) ∧
      (baseN parsed = 200 → variation_frac = 1 / 5 →
        160 ≤ c.sample_size ∧ c.sample_size ≤ 240) := by
  intro po parsed vf g j c hvf hB h
  obtain ⟨hd0, ⟨u, hu1, hu2, hss⟩, hloose, hrat, _⟩ := generate_candidate_ok h
  have hfl : pyInt ((baseN parsed : ℚ) * vf) = ⌊(baseN parsed : ℚ) * vf⌋ := by
    rw [pyInt, if_pos (mul_nonneg (by exact_mod_cast hB) hvf)]
  rw [hfl] at hu1 hu2
  refine ⟨⟨u, hu1, hu2, hss⟩, hloose, hrat, ?_⟩
  intro h200 h15
  rw [h200, h15] at hu1 hu2
  have h40 : (⌊((200 : ℤ) : ℚ) * (1 / 5)⌋ : ℤ) = 40 := by norm_num
  rw [h40] at hu1 hu2
  rw [h200] at hss
  rw [hss, max_eq_right (by omega : (20 : ℤ) ≤ 200 + u)]
  omega

/-- Witness for claim C9 on a concrete generated candidate. -/
theorem C9_generation_bounds_witness :
    (∃ u : ℤ, -⌊(baseN none : ℚ) * (1 / 5)⌋ ≤ u ∧ u ≤ ⌊(baseN none : ℚ) * (1 / 5)⌋ ∧
        c160.sample_size = max 20 (baseN none + u)) ∧
    (c160.looseness = 0 ∨ c160.looseness = 1 ∨ c160.looseness = 2) ∧
    (c160.rand_rat = 1 ∨ c160.rand_rat = 3 / 2 ∨ c160.rand_rat = 2) ∧
    (baseN none = 200 → (1 : ℚ) / 5 = 1 / 5 →
      160 ≤ c160.sample_size ∧ c160.sample_size ≤ 240) :=
  C9_generation_bounds poFail none (1 / 5) rng0 0 c160 (by norm_num)
    (by norm_num [baseN]) (gen_c160 0)

/-- Claim C10 confirmed: an absent or None sample size and a sample size of 0
are treated identically by candidate generation, both falling through the
Python or to the default baseline 200; generation from a descriptor with
sample size 0 coincides with generation from a descriptor with no sample
size. -/
theorem C10_falsy_default :
    baseN none = 200 ∧ baseN (some 0) = 200 ∧
    ∀ (po : PowerOracle) (variation_frac : ℚ) (g : Rng) (j : ℕ),
      generate_candidate po (some 0) variation_frac g j =
        generate_candidate po none variation_frac g j := by
  refine ⟨rfl, by norm_num [baseN], ?_⟩
  intro po vf g j
  have h : baseN (some 0) = baseN none := by norm_num [baseN]
  unfold generate_candidate
  rw [h]
